import Mathlib

/-!
Verification of the audionixbot repository's progress-reporting,
filename-sanitising, preview-trimming, conversion and cleanup logic.

The Python sources are shallowly embedded: strings are `List Char` or
`String`, Python ints are `Int` (or `Nat` where the source value is
provably non-negative), dictionaries with optional keys become structures
of `Option` fields, exceptions become `Except`, and the effects of one
handler invocation (messages attempted, log lines written, files
created/removed) are returned explicitly.  Python's float expression
`int(a / b * 100)` is embedded with exact integer arithmetic as
`a * 100 / b` (floor), the real-arithmetic value of the source expression.
-/

set_option maxRecDepth 20000

namespace Audionix

/-! ## Definitions -/

/-! ### clean_filename (src/utils/downloader.py lines 9-26) -/

/-- The characters matched by the regex class in
`re.sub(r'[\\/*?:"<>|]', "_", filename)`. -/
def invalidFilenameChars : List Char := ['\\', '/', '*', '?', ':', '"', '<', '>', '|']

/-- Embedding of `re.sub(r'[\\/*?:"<>|]', "_", filename)`: every character of
the class is replaced by an underscore (the regex matches single characters,
so the substitution is a character map). -/
def replaceInvalid (s : List Char) : List Char :=
  s.map (fun c => if c ∈ invalidFilenameChars then '_' else c)

/-- Embedding of Python `str.strip(chars)`: remove all leading and all
trailing characters that belong to `cs`. -/
def stripChars (cs : List Char) (s : List Char) : List Char :=
  ((s.dropWhile (· ∈ cs)).reverse.dropWhile (· ∈ cs)).reverse

/-- Embedding of `clean_filename` (src/utils/downloader.py lines 9-26):
replace invalid characters with `_`, strip leading/trailing `". "`,
and slice to the first 200 characters when longer than 200. -/
def clean_filename (s : List Char) : List Char :=
  let cleaned := replaceInvalid s
  let cleaned := stripChars ['.', ' '] cleaned
  if cleaned.length > 200 then cleaned.take 200 else cleaned

/-- The specification's description of `clean_filename`, written as its own
function for comparison with the source embedding: all invalid path
characters replaced with `_`, surrounding spaces/periods trimmed, and the
result length-capped at 200 characters. -/
def specCleanFilename (s : List Char) : List Char :=
  (stripChars ['.', ' '] (s.map (fun c => if c ∈ invalidFilenameChars then '_' else c))).take 200

/-- A 250-character input whose 200th character (after no-op replacement and
stripping) is a period. -/
def c10Input : List Char := List.replicate 199 'a' ++ '.' :: List.replicate 50 'a'

/-! ### DownloadProgressHook (src/utils/downloader.py lines 50-169) -/

/-- A Python value found under the `eta` key of a yt-dlp progress
dictionary: a number of seconds, or some non-numeric value (a string). -/
inductive EtaVal where
  | num (n : Nat)
  | str (s : String)
deriving DecidableEq

/-- A yt-dlp progress dictionary as consumed by
`DownloadProgressHook.__call__`; every key may be absent (`none`). -/
structure ProgressDict where
  status : Option String
  downloaded_bytes : Option Nat
  total_bytes : Option Nat
  total_bytes_estimate : Option Nat
  speed : Option Nat
  eta : Option EtaVal
  error : Option String
deriving DecidableEq

/-- The mutable attributes of a `DownloadProgressHook` instance; the
`status_message` object is represented by whether one exists. -/
structure DLState where
  last_percentage : Int
  download_speed : String
  eta : String
  downloaded_bytes : Nat
  total_bytes : Nat
  has_status_message : Bool
deriving DecidableEq

/-- `DownloadProgressHook.__init__` (src/utils/downloader.py lines 54-70):
`hasMessage` records whether a `status_message` object was supplied. -/
def initDLState (hasMessage : Bool) : DLState :=
  { last_percentage := -1, download_speed := "0 KiB/s", eta := "Unknown",
    downloaded_bytes := 0, total_bytes := 0, has_status_message := hasMessage }

/-- A raised Python exception, as observed by the hook's caller. -/
inductive PyError where
  | keyError (key : String)
deriving DecidableEq

/-- Outcome the chat platform gives to one send/edit call: success, or a
`telegram.error.TelegramError` carrying its message text. -/
inductive TgResult where
  | ok
  | tgError (msg : String)
deriving DecidableEq

/-- Whether `hay` starts with `needle` (helper for Python's `in`). -/
def charsBeginWith : List Char → List Char → Bool
  | [], _ => true
  | _ :: _, [] => false
  | a :: as, b :: bs => a == b && charsBeginWith as bs

/-- Whether `needle` occurs as a contiguous run inside the second list
(Python's `needle in hay` on strings). -/
def charsContain (needle : List Char) : List Char → Bool
  | [] => charsBeginWith needle []
  | c :: t => charsBeginWith needle (c :: t) || charsContain needle t

/-- Python `"message is not modified" in str(e).lower()`; `str.lower()` is
embedded as a character-wise lowering of the message text. -/
def notModified (msg : String) : Bool :=
  charsContain "message is not modified".data (msg.data.map Char.toLower)

/-- Embedding of `DownloadProgressHook._update_progress`
(src/utils/downloader.py lines 145-169): edit the existing status message,
or send a new one and keep its handle; a `TelegramError` whose lowercased
text contains "message is not modified" is swallowed silently, any other
`TelegramError` is logged; no exception escapes.  Returns the new state and
the log lines written.  The `text` argument only feeds the chat call. -/
def updateProgress (_text : String) (res : TgResult) (s : DLState) :
    DLState × List String :=
  match res with
  | .ok =>
      if s.has_status_message then (s, [])
      else ({ s with has_status_message := true }, [])
  | .tgError m =>
      if notModified m then (s, [])
      else (s, ["Telegram error updating progress: " ++ m])

/-- Embedding of `DownloadProgressHook._create_progress_bar`
(src/utils/downloader.py lines 130-143): `int(length * percentage // 100)`
filled block glyphs padded with shade glyphs to `length` characters
(Python repetition by a negative count gives the empty string, matching
truncated `Nat` subtraction). -/
def createProgressBar (percentage : Nat) (length : Nat) : String :=
  let filled := length * percentage / 100
  "[" ++ String.mk (List.replicate filled '█')
      ++ String.mk (List.replicate (length - filled) '░') ++ "]"

/-- Embedding of the f-string `f"{self.download_speed/1024:.1f} KiB/s"`:
the float rendering is represented by the floor of the value in tenths of
a KiB; no claim inspects this text beyond it differing from "Unknown". -/
def kibString (bytesPerSec : Nat) : String :=
  let tenths := bytesPerSec * 10 / 1024
  toString (tenths / 10) ++ "." ++ toString (tenths % 10) ++ " KiB/s"

/-- Embedding of `divmod(self.eta, 60)` with
`f"{int(minutes)}:{int(seconds):02d}"`. -/
def etaString (n : Nat) : String :=
  toString (n / 60) ++ ":" ++ (if n % 60 < 10 then "0" else "") ++ toString (n % 60)

/-- `d.get('total_bytes') or d.get('total_bytes_estimate', 0)`: a missing,
`None` or zero `total_bytes` value is falsy and falls through to the
estimate (default 0). -/
def resolvedTotal (d : ProgressDict) : Nat :=
  match d.total_bytes with
  | some n => if n ≠ 0 then n else d.total_bytes_estimate.getD 0
  | none => d.total_bytes_estimate.getD 0

/-- Embedding of `DownloadProgressHook.__call__`
(src/utils/downloader.py lines 72-128).  `res` is the outcome the chat
platform would give to the (at most one) message update the call attempts.
Returns the new hook state, the texts of the attempted message updates,
and the log lines written; `d['status']` on a dictionary without that key
raises `KeyError`.  `int(downloaded_bytes / total_bytes * 100)` is
embedded with exact integer arithmetic as the floor
`downloaded_bytes * 100 / total_bytes`. -/
def downloadHookCall (d : ProgressDict) (res : TgResult) (s : DLState) :
    Except PyError (DLState × List String × List String) :=
  match d.status with
  | none => .error (.keyError "status")
  | some st =>
    if st = "downloading" then
      let total_bytes := resolvedTotal d
      let downloaded_bytes := d.downloaded_bytes.getD 0
      if total_bytes > 0 then
        let s1 := { s with total_bytes := total_bytes,
                           downloaded_bytes := downloaded_bytes }
        let percentage : Nat := downloaded_bytes * 100 / total_bytes
        if (percentage : Int) ≥ s1.last_percentage + 5 ∨ percentage = 100 then
          let download_speed :=
            if d.speed.getD 0 ≠ 0 then kibString (d.speed.getD 0) else "Unknown"
          let etaDisp :=
            match d.eta with
            | none => "Unknown"
            | some (.num n) => etaString n
            | some (.str t) => t
          let s2 := { s1 with download_speed := download_speed, eta := etaDisp }
          let message_text :=
            "Downloading: " ++ toString percentage ++ "%\n"
              ++ createProgressBar percentage 20
              ++ "\nSpeed: " ++ download_speed ++ " | ETA: " ++ etaDisp
          let out := updateProgress message_text res s2
          .ok ({ out.1 with last_percentage := (percentage : Int) },
               [message_text], out.2)
        else .ok (s1, [], [])
      else .ok (s, [], [])
    else if st = "finished" then
      let message_text := "Download complete! Processing file..."
      let out := updateProgress message_text res s
      .ok (out.1, [message_text], out.2)
    else if st = "error" then
      let message_text := "Error during download: " ++ d.error.getD "Unknown error"
      let out := updateProgress message_text res s
      .ok (out.1, [message_text], out.2)
    else .ok (s, [], [])

/-- A concrete well-formed `Downloading` event: 50 of 100 bytes. -/
def c1Dict : ProgressDict :=
  { status := some "downloading", downloaded_bytes := some 50,
    total_bytes := some 100, total_bytes_estimate := none,
    speed := none, eta := none, error := none }

/-- A concrete malformed progress dictionary without a `status` key. -/
def noStatusDict : ProgressDict :=
  { status := none, downloaded_bytes := some 10, total_bytes := some 100,
    total_bytes_estimate := none, speed := none, eta := none, error := none }

/-- A concrete `finished` progress dictionary. -/
def finishedDict : ProgressDict :=
  { status := some "finished", downloaded_bytes := none, total_bytes := none,
    total_bytes_estimate := none, speed := none, eta := none, error := none }

/-! ### Event streams fed to the download hook (claim C2) -/

/-- One `Downloading` progress dictionary reporting `b` of `total` bytes. -/
def dlDict (total b : Nat) : ProgressDict :=
  { status := some "downloading", downloaded_bytes := some b,
    total_bytes := some total, total_bytes_estimate := none,
    speed := none, eta := none, error := none }

/-- Feed `DownloadProgressHook.__call__` one `Downloading` event per element
of `bytes` (fixed known total, every delivery succeeding), recording for
each event the `last_percentage` seen on entry, the percent the call
computes, and whether a message update was attempted. -/
def downloadTrace (total : Nat) : List Nat → DLState → List (Int × Nat × Bool)
  | [], _ => []
  | b :: bs, s =>
    match downloadHookCall (dlDict total b) .ok s with
    | .error _ => []
    | .ok (s1, attempts, _) =>
        (s.last_percentage, b * 100 / total, !attempts.isEmpty)
          :: downloadTrace total bs s1

/-- The percents of the trace entries at which an update was attempted. -/
def emittedPercents (total : Nat) (bytes : List Nat) (s : DLState) : List Nat :=
  (downloadTrace total bytes s).filterMap
    (fun e => if e.2.2 then some e.2.1 else none)

/-- The specification's emission predicate for claim C2: the percent
crosses a multiple-of-5 boundary not yet reported (some multiple of 5
above the last reported percent and not above the current percent), or
the percent equals 100. -/
def specBoundaryEmit (lastReported : Int) (percent : Nat) : Prop :=
  (∃ k : Nat, 5 * k ≤ percent ∧ lastReported < ((5 * k : Nat) : Int)) ∨ percent = 100

/-- The pure throttle recursion implemented by the hook, on precomputed
percents: an update is attempted iff the percent is at least five points
above the last reported one or equals 100, and the last reported percent
advances exactly on attempted updates. -/
def throttleRun (l : Int) : List Nat → List (Int × Nat × Bool)
  | [] => []
  | p :: ps =>
    if (p : Int) ≥ l + 5 ∨ p = 100 then (l, p, true) :: throttleRun (p : Int) ps
    else (l, p, false) :: throttleRun l ps

/-- The percents emitted by the pure throttle recursion. -/
def runEmitted (l : Int) (ps : List Nat) : List Nat :=
  (throttleRun l ps).filterMap (fun e => if e.2.2 then some e.2.1 else none)

/-- Percent streams as produced by strictly increasing byte counts bounded
by the total: every percent is at most 100, and a percent of 100 can only
be the last element. -/
def goodPercents : List Nat → Prop
  | [] => True
  | p :: ps => p ≤ 100 ∧ (p = 100 → ps = []) ∧ goodPercents ps

/-! ### ConversionProgressHook (src/utils/downloader.py lines 171-262) -/

/-- Mutable attributes of a `ConversionProgressHook` instance. -/
structure ConvState where
  last_percentage : Int
  has_status_message : Bool
deriving DecidableEq

/-- `ConversionProgressHook.__init__` (src/utils/downloader.py lines 175-189). -/
def initConvState (hasMessage : Bool) : ConvState :=
  { last_percentage := -1, has_status_message := hasMessage }

/-- Embedding of `ConversionProgressHook._create_progress_bar`
(src/utils/downloader.py lines 219-232) for a caller-supplied, possibly
negative percentage: Python `//` is floor division (`Int.fdiv`) and string
repetition by a negative count gives the empty string (`Int.toNat`). -/
def createProgressBarI (percentage : Int) (length : Int) : String :=
  let filled := Int.fdiv (length * percentage) 100
  "[" ++ String.mk (List.replicate filled.toNat '█')
      ++ String.mk (List.replicate (length - filled).toNat '░') ++ "]"

/-- Embedding of `ConversionProgressHook._update_progress`
(src/utils/downloader.py lines 234-262), code duplicated from the download
hook but over the conversion hook's state. -/
def convUpdateProgress (_text : String) (res : TgResult) (s : ConvState) :
    ConvState × List String :=
  match res with
  | .ok =>
      if s.has_status_message then (s, [])
      else ({ s with has_status_message := true }, [])
  | .tgError m =>
      if notModified m then (s, [])
      else (s, ["Telegram error updating progress: " ++ m])

/-- Embedding of `ConversionProgressHook.update_progress`
(src/utils/downloader.py lines 191-217): attempt a message update only when
`percentage >= last_percentage + 10 or percentage == 100`, and advance
`last_percentage` exactly then.  Returns the new state, the attempted
message texts, and the log lines. -/
def conversionUpdateProgress (percentage : Int) (message : Option String)
    (res : TgResult) (s : ConvState) : ConvState × List String × List String :=
  if percentage ≥ s.last_percentage + 10 ∨ percentage = 100 then
    let progress_bar := createProgressBarI percentage 20
    let message_text :=
      match message with
      | some m =>
          "Converting: " ++ toString percentage ++ "%\n" ++ progress_bar ++ "\n" ++ m
      | none => "Converting: " ++ toString percentage ++ "%\n" ++ progress_bar
    let out := convUpdateProgress message_text res s
    ({ out.1 with last_percentage := percentage }, [message_text], out.2)
  else (s, [], [])

/-- Feed `update_progress` one call per element of `calls` (successful
deliveries), recording for each call the `last_percentage` on entry, the
percentage argument, and whether a message update was attempted. -/
def conversionTrace : List (Int × Option String) → ConvState → List (Int × Int × Bool)
  | [], _ => []
  | (p, m) :: rest, s =>
    let out := conversionUpdateProgress p m .ok s
    (s.last_percentage, p, !out.2.1.isEmpty) :: conversionTrace rest out.1

/-! ### create_audio_preview trimming (src/utils/waveform.py lines 56-98) -/

/-- Embedding of the trimming arithmetic of `create_audio_preview`
(src/utils/waveform.py lines 56-98), in milliseconds:
`total_duration = len(audio)`; `preview_duration = min(duration * 1000,
total_duration)`; `middle_point = total_duration // 2`;
`start_time = max(0, middle_point - preview_duration // 2)`;
`end_time = min(total_duration, start_time + preview_duration)`.  All
quantities are non-negative, so the Python ints embed as `Nat` and the
`max(0, ·)` clamp is the truncation already built into `Nat`
subtraction. -/
def previewWindow (total_duration : Nat) (duration : Nat) : Nat × Nat :=
  let preview_duration := min (duration * 1000) total_duration
  let middle_point := total_duration / 2
  let start_time := middle_point - preview_duration / 2
  let end_time := min total_duration (start_time + preview_duration)
  (start_time, end_time)

/-! ### Temporary files: converter (src/utils/converter.py) -/

/-- Existing filesystem paths, as a list. -/
def fsAdd (p : String) (fs : List String) : List String := fs ++ [p]

/-- `if os.path.exists(p): os.remove(p)` — removing an absent path is a
no-op either way. -/
def fsRemove (p : String) (fs : List String) : List String :=
  fs.filter (fun q => q ≠ p)

/-- Result of a finished external process: exit code and captured stderr. -/
structure ProcResult where
  returncode : Int
  stderr : String
deriving DecidableEq

/-- Environment of one `convert_mp3_to_mp4` invocation: the output name
handed out by `tempfile.NamedTemporaryFile(suffix='.mp4', delete=False)`,
the parsed ffprobe duration text (`.error e` when probing or float parsing
raised `e`), and the outcome of the ffmpeg subprocess. -/
structure ConvertEnv where
  tempName : String
  probe : Except String String
  ffmpeg : ProcResult

/-- Embedding of `convert_mp3_to_mp4` (src/utils/converter.py lines 9-77):
the outcome (`.ok` output path, or `.error` carrying the raised
exception's message), the filesystem after the call, and the log lines.
The temporary output file is created up front (`delete=False`) and is not
removed on failure; on non-zero exit the function logs the captured stderr
and raises `Exception` with the text
`FFmpeg conversion failed with code {returncode}`, which the outer
handler logs (`Error converting MP3 to MP4: ...`) and re-raises. -/
def convert_mp3_to_mp4 (_mp3_path : String) (env : ConvertEnv) (fs : List String) :
    Except String String × List String × List String :=
  let fs1 := fsAdd env.tempName fs
  let probeLogs :=
    match env.probe with
    | .ok dur => ["Detected audio duration: " ++ dur ++ " seconds"]
    | .error e =>
        ["Could not determine audio duration: " ++ e ++ ", using default color source"]
  if env.ffmpeg.returncode ≠ 0 then
    let msg := "FFmpeg conversion failed with code " ++ toString env.ffmpeg.returncode
    (.error msg, fs1,
     probeLogs ++ ["FFmpeg error: " ++ env.ffmpeg.stderr,
                   "Error converting MP3 to MP4: " ++ msg])
  else (.ok env.tempName, fs1, probeLogs)

/-- Embedding of `convert_mp4_to_mp3` (src/utils/converter.py lines 79-125):
same structure as the mp3→mp4 direction, without the duration probe. -/
def convert_mp4_to_mp3 (_mp4_path : String) (tempName : String)
    (ffmpeg : ProcResult) (fs : List String) :
    Except String String × List String × List String :=
  let fs1 := fsAdd tempName fs
  if ffmpeg.returncode ≠ 0 then
    let msg := "FFmpeg conversion failed with code " ++ toString ffmpeg.returncode
    (.error msg, fs1,
     ["FFmpeg error: " ++ ffmpeg.stderr, "Error converting MP4 to MP3: " ++ msg])
  else (.ok tempName, fs1, [])

/-! ### handle_file_for_conversion (src/bot.py lines 656-732) -/

/-- Environment of one `handle_file_for_conversion` invocation: the
conversation state, whether the message carries a file, the temp names
handed out, and the outcomes of the external steps. -/
structure ConvPipeEnv where
  conversion_type : Option String
  hasFile : Bool
  inputTempName : String
  downloadOk : Bool
  outputTempName : String
  probe : Except String String
  ffmpeg : ProcResult
  send : Except String Unit

/-- Embedding of `handle_file_for_conversion` (src/bot.py lines 656-732):
the outcome (`.error` for an exception that escapes the handler — the
`file_info.download` call sits outside the `try` block), the final
filesystem, the user-facing replies, and the log lines.  On the caught
exception path only the input file is removed. -/
def handle_file_for_conversion (env : ConvPipeEnv) (fs : List String) :
    Except String Unit × List String × List String × List String :=
  if ¬ env.hasFile then
    (.ok (), fs, ["Please send a valid file for conversion."], [])
  else
    let replies0 := ["Downloading your file..."]
    let fs1 := fsAdd env.inputTempName fs
    if ¬ env.downloadOk then (.error "file download failed", fs1, replies0, [])
    else
      let replies1 := replies0 ++ ["Converting your file..."]
      if env.conversion_type = some "mp3_to_mp4" then
        match convert_mp3_to_mp4 env.inputTempName
            { tempName := env.outputTempName, probe := env.probe,
              ffmpeg := env.ffmpeg } fs1 with
        | (.error e, fs2, logs) =>
            (.ok (), fsRemove env.inputTempName fs2,
             replies1 ++ ["Sorry, I encountered an error during conversion: " ++ e],
             logs ++ ["Conversion error: " ++ e])
        | (.ok outPath, fs2, logs) =>
            match env.send with
            | .ok _ =>
                (.ok (), fsRemove outPath (fsRemove env.inputTempName fs2),
                 replies1 ++ ["Here's your converted MP4 file!",
                              "Conversion completed successfully! 🎵"], logs)
            | .error e =>
                (.ok (), fsRemove env.inputTempName fs2,
                 replies1 ++ ["Sorry, I encountered an error during conversion: " ++ e],
                 logs ++ ["Conversion error: " ++ e])
      else if env.conversion_type = some "mp4_to_mp3" then
        match convert_mp4_to_mp3 env.inputTempName env.outputTempName
            env.ffmpeg fs1 with
        | (.error e, fs2, logs) =>
            (.ok (), fsRemove env.inputTempName fs2,
             replies1 ++ ["Sorry, I encountered an error during conversion: " ++ e],
             logs ++ ["Conversion error: " ++ e])
        | (.ok outPath, fs2, logs) =>
            match env.send with
            | .ok _ =>
                (.ok (), fsRemove outPath (fsRemove env.inputTempName fs2),
                 replies1 ++ ["Here's your converted MP3 file!",
                              "Conversion completed successfully! 🎵"], logs)
            | .error e =>
                (.ok (), fsRemove env.inputTempName fs2,
                 replies1 ++ ["Sorry, I encountered an error during conversion: " ++ e],
                 logs ++ ["Conversion error: " ++ e])
      else
        (.ok (), fsRemove env.inputTempName fs1,
         replies1 ++ ["Conversion completed successfully! 🎵"], [])

/-! ### preview pipeline (src/utils/waveform.py and src/bot.py lines 375-488) -/

/-- Environment of one `generate_preview_bundle` invocation: the temp
names handed out and whether each generation step succeeds. -/
structure BundleEnv where
  previewTempName : String
  previewOk : Bool
  waveformTempName : String
  waveformOk : Bool
deriving DecidableEq

/-- File behaviour of `create_audio_preview` (src/utils/waveform.py lines
56-98) called with `output_path=None`: the temp file is created up front;
on an exception the except branch removes it and returns `None`. -/
def create_audio_preview_fs (env : BundleEnv) (fs : List String) :
    Option String × List String :=
  let fs1 := fsAdd env.previewTempName fs
  if env.previewOk then (some env.previewTempName, fs1)
  else (none, fsRemove env.previewTempName fs1)

/-- File behaviour of `generate_waveform_image` (src/utils/waveform.py
lines 13-54), same shape as the preview generator. -/
def generate_waveform_image_fs (env : BundleEnv) (fs : List String) :
    Option String × List String :=
  let fs1 := fsAdd env.waveformTempName fs
  if env.waveformOk then (some env.waveformTempName, fs1)
  else (none, fsRemove env.waveformTempName fs1)

/-- File behaviour of `generate_preview_bundle` (src/utils/waveform.py
lines 100-131): generate the audio preview, then the waveform from the
preview; when the waveform step fails the preview file is removed; returns
`(waveform_path, preview_path)`. -/
def generate_preview_bundle_fs (env : BundleEnv) (fs : List String) :
    (Option String × Option String) × List String :=
  match create_audio_preview_fs env fs with
  | (none, fs1) => ((none, none), fs1)
  | (some p, fs1) =>
    match generate_waveform_image_fs env fs1 with
    | (none, fs2) => ((none, none), fsRemove p fs2)
    | (some w, fs2) => ((some w, some p), fs2)

/-- Environment of one `preview_song` invocation. -/
structure PreviewEnv where
  validIndex : Bool
  download : Except String (Option String)
  bundle : BundleEnv
  sendPhoto : Except String Unit
  sendAudio : Except String Unit

/-- File behaviour of `preview_song` (src/bot.py lines 375-488): download
the full song, build the preview bundle, delete the full download, send
the waveform image then the audio preview, and delete both; every
exception is caught by the handler's outer `try`, whose except branch
edits the status message but removes no files.  Status-message edits are
modeled as succeeding.  Returns the final filesystem. -/
def preview_song (env : PreviewEnv) (fs : List String) : List String :=
  if ¬ env.validIndex then fs
  else
    match env.download with
    | .error _ => fs
    | .ok none => fs
    | .ok (some filepath) =>
      let fs1 := fsAdd filepath fs
      match generate_preview_bundle_fs env.bundle fs1 with
      | ((some w, some p), fs2) =>
        let fs3 := fsRemove filepath fs2
        (match env.sendPhoto with
         | .error _ => fs3
         | .ok _ =>
           match env.sendAudio with
           | .error _ => fs3
           | .ok _ => fsRemove p (fsRemove w fs3))
      | (_, fs2) => fsRemove filepath fs2

/-! ## Theorems -/

theorem mem_of_mem_dropWhile {α : Type} {p : α → Bool} :
    ∀ {l : List α} {c : α}, c ∈ l.dropWhile p → c ∈ l := by
  intro l
  induction l with
  | nil => intro c h; simp [List.dropWhile] at h
  | cons a t ih =>
    intro c h
    by_cases hp : p a
    · rw [List.dropWhile_cons_of_pos hp] at h
      exact List.mem_cons_of_mem _ (ih h)
    · rw [List.dropWhile_cons_of_neg hp] at h
      exact h

theorem clean_filename_eq_spec (s : List Char) :
    clean_filename s = specCleanFilename s := by
  unfold clean_filename specCleanFilename replaceInvalid
  by_cases h : (stripChars ['.', ' '] (s.map (fun c => if c ∈ invalidFilenameChars then '_' else c))).length > 200
  · simp [h]
  · simp only [h, if_false]
    exact (List.take_of_length_le (by omega)).symm

theorem clean_filename_length_le (s : List Char) :
    (clean_filename s).length ≤ 200 := by
  rw [clean_filename_eq_spec]
  unfold specCleanFilename
  simp [List.length_take]

theorem clean_filename_no_invalid (s : List Char) :
    (clean_filename s).all (fun c => !(invalidFilenameChars.contains c)) = true := by
  rw [clean_filename_eq_spec]
  unfold specCleanFilename stripChars
  simp only [List.all_eq_true]
  intro c hc
  have h1 : c ∈ (s.map (fun c => if c ∈ invalidFilenameChars then '_' else c)) := by
    have h2 := List.mem_of_mem_take hc
    rw [List.mem_reverse] at h2
    have h3 := mem_of_mem_dropWhile h2
    rw [List.mem_reverse] at h3
    exact mem_of_mem_dropWhile h3
  rw [List.mem_map] at h1
  obtain ⟨a, _, ha⟩ := h1
  by_cases hmem : a ∈ invalidFilenameChars
  · simp [hmem] at ha
    subst ha
    decide
  · simp [hmem] at ha
    subst ha
    simpa [List.contains_eq_any_beq] using hmem

/-- Claim C8: `clean_filename` replaces every occurrence of the invalid
characters with `_`, strips leading and trailing spaces and periods, and
caps the result at 200 characters (inputs whose cleaned form exceeds 200
characters are truncated to 200): the source function coincides with the
specification's replace-strip-cap pipeline, its output never exceeds 200
characters, and no invalid character survives. -/
theorem C8_clean_filename_spec (s : List Char) :
    clean_filename s = specCleanFilename s ∧
    (clean_filename s).length ≤ 200 ∧
    (clean_filename s).all (fun c => !(invalidFilenameChars.contains c)) = true :=
  ⟨clean_filename_eq_spec s, clean_filename_length_le s, clean_filename_no_invalid s⟩

/-- Claim C10: `clean_filename` strips before truncating, so it is not
idempotent: the concrete input of 199 `a`s, one period, and 50 more `a`s is
longer than 200 characters, its image ends in a period, and applying
`clean_filename` a second time changes the result. -/
theorem C10_clean_filename_not_idempotent :
    c10Input.length > 200 ∧
    (clean_filename c10Input).getLast? = some '.' ∧
    clean_filename (clean_filename c10Input) ≠ clean_filename c10Input := by
  refine ⟨by decide, ?_, ?_⟩ <;> decide

theorem updateProgress_last (text : String) (res : TgResult) (s : DLState) :
    (updateProgress text res s).1.last_percentage = s.last_percentage := by
  unfold updateProgress
  cases res with
  | ok => by_cases h : s.has_status_message <;> simp [h]
  | tgError m => by_cases h : notModified m <;> simp [h]

theorem updateProgress_speed (text : String) (res : TgResult) (s : DLState) :
    (updateProgress text res s).1.download_speed = s.download_speed := by
  unfold updateProgress
  cases res with
  | ok => by_cases h : s.has_status_message <;> simp [h]
  | tgError m => by_cases h : notModified m <;> simp [h]

theorem updateProgress_etaField (text : String) (res : TgResult) (s : DLState) :
    (updateProgress text res s).1.eta = s.eta := by
  unfold updateProgress
  cases res with
  | ok => by_cases h : s.has_status_message <;> simp [h]
  | tgError m => by_cases h : notModified m <;> simp [h]

/-- Claim C1: for every `Downloading` event with known positive total,
`DownloadProgressHook.__call__` computes
`percent = floor(bytesTransferred / bytesTotal * 100)` and attempts exactly
one message update if `percent ≥ lastReportedPercent + 5` or
`percent = 100` (and none otherwise), setting `lastReportedPercent`
(initially -1) to `percent` exactly when an update is attempted. -/
theorem C1_download_throttle (d : ProgressDict) (res : TgResult) (s : DLState)
    (hst : d.status = some "downloading") (htot : 0 < resolvedTotal d) :
    ((downloadHookCall d res s).map
        (fun out => (out.2.1.length, out.1.last_percentage)) =
      (if ((d.downloaded_bytes.getD 0 * 100 / resolvedTotal d : Nat) : Int)
            ≥ s.last_percentage + 5
          ∨ (d.downloaded_bytes.getD 0 * 100 / resolvedTotal d : Nat) = 100
       then .ok (1, ((d.downloaded_bytes.getD 0 * 100 / resolvedTotal d : Nat) : Int))
       else .ok (0, s.last_percentage))) ∧
    (initDLState false).last_percentage = -1 ∧
    (initDLState true).last_percentage = -1 := by
  refine ⟨?_, rfl, rfl⟩
  unfold downloadHookCall
  rw [hst]
  by_cases hcond : ((d.downloaded_bytes.getD 0 * 100 / resolvedTotal d : Nat) : Int)
      ≥ s.last_percentage + 5
    ∨ (d.downloaded_bytes.getD 0 * 100 / resolvedTotal d : Nat) = 100
  · simp at hcond
    simp [hcond, htot, Except.map]
  · simp at hcond
    simp [htot, Except.map, hcond.2, not_le.mpr hcond.1]

theorem C1_download_throttle_witness :
    c1Dict.status = some "downloading" ∧ 0 < resolvedTotal c1Dict ∧
    (((downloadHookCall c1Dict .ok (initDLState false)).map
        (fun out => (out.2.1.length, out.1.last_percentage)) =
      (if ((c1Dict.downloaded_bytes.getD 0 * 100 / resolvedTotal c1Dict : Nat) : Int)
            ≥ (initDLState false).last_percentage + 5
          ∨ (c1Dict.downloaded_bytes.getD 0 * 100 / resolvedTotal c1Dict : Nat) = 100
       then .ok (1, ((c1Dict.downloaded_bytes.getD 0 * 100 / resolvedTotal c1Dict : Nat) : Int))
       else .ok (0, (initDLState false).last_percentage))) ∧
    (initDLState false).last_percentage = -1 ∧
    (initDLState true).last_percentage = -1) :=
  ⟨rfl, by decide, C1_download_throttle c1Dict .ok (initDLState false) rfl (by decide)⟩

/-- Claim C6 counterexample: on a progress dictionary missing the `status`
field, `d['status']` raises `KeyError`, so `__call__` does not complete
without raising. -/
theorem C6_counterexample :
    downloadHookCall noStatusDict .ok (initDLState false) =
      .error (.keyError "status") := rfl

theorem downloadHookCall_isOk (d : ProgressDict) (res : TgResult) (s : DLState)
    (h : d.status.isSome = true) : (downloadHookCall d res s).isOk = true := by
  obtain ⟨st, hst⟩ := Option.isSome_iff_exists.mp h
  unfold downloadHookCall
  rw [hst]
  by_cases h1 : st = "downloading"
  · by_cases h2 : 0 < resolvedTotal d
    · by_cases hcond : ((d.downloaded_bytes.getD 0 * 100 / resolvedTotal d : Nat) : Int)
          ≥ s.last_percentage + 5
        ∨ (d.downloaded_bytes.getD 0 * 100 / resolvedTotal d : Nat) = 100
      · simp at hcond
        simp [h1, h2, hcond, Except.isOk, Except.toBool]
      · simp at hcond
        simp [h1, h2, Except.isOk, Except.toBool, hcond.2, not_le.mpr hcond.1]
    · simp [h1, h2, Except.isOk, Except.toBool]
  · by_cases h3 : st = "finished"
    · simp [h1, h3, Except.isOk, Except.toBool]
    · by_cases h4 : st = "error"
      · simp [h1, h3, h4, Except.isOk, Except.toBool]
      · simp [h1, h3, h4, Except.isOk, Except.toBool]

/-- Claim C6 (amended): `__call__` raises `KeyError` when the `status`
field is missing; whenever a `status` field is present, the call completes
without raising, a missing total-size field (no `total_bytes` and no
`total_bytes_estimate`) makes the event a tolerated no-op, and on an
attempted update a missing `speed` or `eta` field degrades to the
"Unknown" display string. -/
theorem C6_no_raise_with_status (d : ProgressDict) (res : TgResult) (s : DLState)
    (h : d.status.isSome = true) :
    (downloadHookCall d res s).isOk = true ∧
    (d.status = some "downloading" → d.total_bytes = none →
      d.total_bytes_estimate = none → downloadHookCall d res s = .ok (s, [], [])) ∧
    (d.status = some "downloading" → 0 < resolvedTotal d →
      (((d.downloaded_bytes.getD 0 * 100 / resolvedTotal d : Nat) : Int)
          ≥ s.last_percentage + 5
        ∨ (d.downloaded_bytes.getD 0 * 100 / resolvedTotal d : Nat) = 100) →
      (d.speed = none →
        (downloadHookCall d res s).map (fun out => out.1.download_speed) =
          .ok "Unknown") ∧
      (d.eta = none →
        (downloadHookCall d res s).map (fun out => out.1.eta) = .ok "Unknown")) := by
  refine ⟨downloadHookCall_isOk d res s h, ?_, ?_⟩
  · intro hdl hnone hnone2
    unfold downloadHookCall
    rw [hdl]
    simp [resolvedTotal, hnone, hnone2]
  · intro hdl htot hcond
    simp at hcond
    constructor
    · intro hspeed
      unfold downloadHookCall
      rw [hdl]
      simp [htot, hcond, hspeed, updateProgress_speed, Except.map]
    · intro heta
      unfold downloadHookCall
      rw [hdl]
      simp [htot, hcond, heta, updateProgress_etaField, Except.map]

theorem C6_no_raise_with_status_witness :
    (downloadHookCall c1Dict .ok (initDLState false)).isOk = true ∧
    (downloadHookCall c1Dict .ok (initDLState false)).map
        (fun out => out.1.download_speed) = .ok "Unknown" ∧
    (downloadHookCall c1Dict .ok (initDLState false)).map
        (fun out => out.1.eta) = .ok "Unknown" :=
  ⟨(C6_no_raise_with_status c1Dict .ok (initDLState false) rfl).1,
   ((C6_no_raise_with_status c1Dict .ok (initDLState false) rfl).2.2
      rfl (by decide) (by decide)).1 rfl,
   ((C6_no_raise_with_status c1Dict .ok (initDLState false) rfl).2.2
      rfl (by decide) (by decide)).2 rfl⟩

/-- Claim C7: a chat-platform edit rejection whose text says the message is
not modified is swallowed inside `_update_progress` — no log line, no state
change, nothing propagates; any other `TelegramError` is logged and likewise
leaves the state unchanged; and a `TelegramError` delivery outcome never
makes `__call__` raise. -/
theorem C7_tg_errors_swallowed (m text : String) (d : ProgressDict)
    (s : DLState) (h : d.status.isSome = true) :
    (notModified m = true → updateProgress text (.tgError m) s = (s, [])) ∧
    (notModified m = false →
      updateProgress text (.tgError m) s =
        (s, ["Telegram error updating progress: " ++ m])) ∧
    (downloadHookCall d (.tgError m) s).isOk = true :=
  ⟨fun hm => by simp [updateProgress, hm],
   fun hm => by simp [updateProgress, hm],
   downloadHookCall_isOk d (.tgError m) s h⟩

theorem C7_tg_errors_swallowed_witness :
    updateProgress "x" (.tgError "Bad Request: Message is not modified")
        (initDLState true) = (initDLState true, []) ∧
    updateProgress "x" (.tgError "Forbidden: bot was blocked")
        (initDLState true) =
      (initDLState true,
       ["Telegram error updating progress: Forbidden: bot was blocked"]) ∧
    (downloadHookCall finishedDict (.tgError "Forbidden: bot was blocked")
        (initDLState true)).isOk = true :=
  ⟨(C7_tg_errors_swallowed "Bad Request: Message is not modified" "x"
      finishedDict (initDLState true) rfl).1 (by decide),
   (C7_tg_errors_swallowed "Forbidden: bot was blocked" "x"
      finishedDict (initDLState true) rfl).2.1 (by decide),
   (C7_tg_errors_swallowed "Forbidden: bot was blocked" "x"
      finishedDict (initDLState true) rfl).2.2⟩

theorem resolvedTotal_dlDict (total b : Nat) (htot : 0 < total) :
    resolvedTotal (dlDict total b) = total := by
  simp [resolvedTotal, dlDict, Nat.pos_iff_ne_zero.mp htot]

theorem downloadHookCall_dlDict (total b : Nat) (htot : 0 < total) (s : DLState) :
    downloadHookCall (dlDict total b) .ok s =
      (if ((b * 100 / total : Nat) : Int) ≥ s.last_percentage + 5
          ∨ (b * 100 / total : Nat) = 100 then
        .ok ({ last_percentage := ((b * 100 / total : Nat) : Int),
               download_speed := "Unknown", eta := "Unknown",
               downloaded_bytes := b, total_bytes := total,
               has_status_message := true },
             ["Downloading: " ++ toString (b * 100 / total) ++ "%\n"
                ++ createProgressBar (b * 100 / total) 20
                ++ "\nSpeed: " ++ "Unknown" ++ " | ETA: " ++ "Unknown"], [])
      else .ok ({ s with total_bytes := total, downloaded_bytes := b }, [], [])) := by
  have hrt := resolvedTotal_dlDict total b htot
  unfold downloadHookCall
  simp only [hrt]
  by_cases hcond : ((b * 100 / total : Nat) : Int) ≥ s.last_percentage + 5
      ∨ (b * 100 / total : Nat) = 100
  · simp at hcond
    by_cases hmsg : s.has_status_message
    · simp [dlDict, htot, hcond, updateProgress, hmsg]
    · simp [dlDict, htot, hcond, updateProgress, hmsg]
  · simp at hcond
    simp [dlDict, htot, updateProgress, hcond.2, not_le.mpr hcond.1]

theorem downloadTrace_eq_throttleRun (total : Nat) (htot : 0 < total) :
    ∀ (bytes : List Nat) (s : DLState),
      downloadTrace total bytes s =
        throttleRun s.last_percentage (bytes.map (fun b => b * 100 / total)) := by
  intro bytes
  induction bytes with
  | nil => intro s; rfl
  | cons b bs ih =>
    intro s
    by_cases hcond : ((b * 100 / total : Nat) : Int) ≥ s.last_percentage + 5
        ∨ (b * 100 / total : Nat) = 100
    · simp only [downloadTrace, downloadHookCall_dlDict total b htot s,
                 if_pos hcond, List.map_cons, throttleRun]
      rw [ih]
      simp
    · simp only [downloadTrace, downloadHookCall_dlDict total b htot s,
                 if_neg hcond, List.map_cons, throttleRun]
      rw [ih]
      simp

theorem throttleRun_emit_flag :
    ∀ (ps : List Nat) (l : Int) (e : Int × Nat × Bool), e ∈ throttleRun l ps →
      e.2.2 = decide (((e.2.1 : Nat) : Int) ≥ e.1 + 5 ∨ e.2.1 = 100) := by
  intro ps
  induction ps with
  | nil => intro l e he; simp [throttleRun] at he
  | cons p t ih =>
    intro l e he
    by_cases h : ((p : Nat) : Int) ≥ l + 5 ∨ p = 100
    · rw [throttleRun, if_pos h] at he
      rcases List.mem_cons.mp he with rfl | h2
      · simp [h]
      · exact ih _ e h2
    · rw [throttleRun, if_neg h] at he
      rcases List.mem_cons.mp he with rfl | h2
      · simp [h]
      · exact ih _ e h2

theorem goodPercents_map (total : Nat) (htot : 0 < total) :
    ∀ (bytes : List Nat), List.Chain' (· < ·) bytes →
      (∀ b ∈ bytes, b ≤ total) →
      goodPercents (bytes.map (fun b => b * 100 / total)) := by
  intro bytes
  induction bytes with
  | nil => intro _ _; simp [goodPercents]
  | cons b bs ih =>
    intro hch hle
    rw [List.map_cons]
    refine ⟨?_, ?_, ?_⟩
    · have hb : b ≤ total := hle b (List.mem_cons_self b bs)
      calc b * 100 / total ≤ total * 100 / total :=
            Nat.div_le_div_right (Nat.mul_le_mul_right 100 hb)
        _ = 100 := Nat.mul_div_cancel_left 100 htot
    · intro h100
      have hb : b ≤ total := hle b (List.mem_cons_self b bs)
      have h1 : 100 * total ≤ b * 100 :=
        (Nat.le_div_iff_mul_le htot).mp (le_of_eq h100.symm)
      cases bs with
      | nil => rfl
      | cons b2 t2 =>
        exfalso
        have hlt : b < b2 := (List.chain'_cons.mp hch).1
        have hb2 : b2 ≤ total := hle b2 (by simp)
        omega
    · exact ih (List.Chain'.tail hch) (fun x hx => hle x (List.mem_cons_of_mem b hx))

theorem runEmitted_strict :
    ∀ (ps : List Nat) (l : Int), l < 100 → goodPercents ps →
      (∀ q ∈ runEmitted l ps, l < (q : Int)) ∧
      List.Chain' (· < ·) (runEmitted l ps) := by
  intro ps
  induction ps with
  | nil => intro l hl hg; simp [runEmitted, throttleRun]
  | cons p t ih =>
    intro l hl hg
    obtain ⟨hp100, h100, hgood⟩ := hg
    by_cases h : ((p : Nat) : Int) ≥ l + 5 ∨ p = 100
    · have hrun : runEmitted l (p :: t) = p :: runEmitted (p : Int) t := by
        simp [runEmitted, throttleRun, h]
      have hlp : l < ((p : Nat) : Int) := by
        rcases h with h5 | h100c
        · omega
        · subst h100c; omega
      by_cases hp : p = 100
      · have ht : t = [] := h100 hp
        subst ht
        rw [hrun]
        constructor
        · intro q hq
          simp [runEmitted, throttleRun] at hq
          rw [hq]
          exact hlp
        · simp [runEmitted, throttleRun]
      · have hplt : p < 100 := lt_of_le_of_ne hp100 hp
        have ihres := ih (p : Int) (by exact_mod_cast hplt) hgood
        rw [hrun]
        constructor
        · intro q hq
          rcases List.mem_cons.mp hq with rfl | hq2
          · exact hlp
          · exact lt_trans hlp (ihres.1 q hq2)
        · rw [List.chain'_cons']
          refine ⟨?_, ihres.2⟩
          intro a ha
          have hmem : a ∈ runEmitted (p : Int) t := List.mem_of_mem_head? ha
          exact_mod_cast ihres.1 a hmem
    · have hrun : runEmitted l (p :: t) = runEmitted l t := by
        simp [runEmitted, throttleRun, h]
      rw [hrun]
      exact ih l hl hgood

/-- Claim C2 counterexample: with total 100 and strictly increasing
transferred bytes 4, 9, 13, the third event computes percent 13, which
crosses the not-yet-reported multiple-of-5 boundary 10 (the last reported
percent being 9), yet the hook attempts no update: the hook throttles from
the last reported percent, not from multiple-of-5 boundaries, so the
claimed iff fails on this event. -/
theorem C2_boundary_counterexample :
    downloadTrace 100 [4, 9, 13] (initDLState true) =
      [(-1, 4, true), (4, 9, true), (9, 13, false)] ∧
    specBoundaryEmit 9 13 :=
  ⟨by decide, Or.inl ⟨2, by norm_num, by norm_num⟩⟩

/-- Claim C2 (amended): for event sequences with strictly increasing
transferred bytes bounded by a fixed positive total, the hook attempts an
update iff the computed percent is at least five points above the last
reported percent or equals 100; the emitted percents strictly increase, so
the reported values are non-decreasing and no percent is emitted twice. -/
theorem C2_amended_throttle (total : Nat) (bytes : List Nat) (hasMsg : Bool)
    (htot : 0 < total) (hinc : List.Chain' (· < ·) bytes)
    (hle : ∀ b ∈ bytes, b ≤ total) :
    (∀ e ∈ downloadTrace total bytes (initDLState hasMsg),
        e.2.2 = decide (((e.2.1 : Nat) : Int) ≥ e.1 + 5 ∨ e.2.1 = 100)) ∧
    List.Chain' (· < ·) (emittedPercents total bytes (initDLState hasMsg)) ∧
    (emittedPercents total bytes (initDLState hasMsg)).Nodup := by
  have htr := downloadTrace_eq_throttleRun total htot bytes (initDLState hasMsg)
  have hem : emittedPercents total bytes (initDLState hasMsg) =
      runEmitted (-1) (bytes.map (fun b => b * 100 / total)) := by
    unfold emittedPercents runEmitted
    rw [htr]
    simp [initDLState]
  have hstrict := runEmitted_strict (bytes.map (fun b => b * 100 / total)) (-1)
      (by norm_num) (goodPercents_map total htot bytes hinc hle)
  refine ⟨?_, ?_, ?_⟩
  · intro e he
    rw [htr] at he
    exact throttleRun_emit_flag _ _ e he
  · rw [hem]
    exact hstrict.2
  · rw [hem]
    exact (List.chain'_iff_pairwise.mp hstrict.2).imp (fun hab => Nat.ne_of_lt hab)

theorem convUpdateProgress_last (text : String) (res : TgResult) (s : ConvState) :
    (convUpdateProgress text res s).1.last_percentage = s.last_percentage := by
  unfold convUpdateProgress
  cases res with
  | ok => by_cases h : s.has_status_message <;> simp [h]
  | tgError m => by_cases h : notModified m <;> simp [h]

theorem conversionTrace_flag :
    ∀ (calls : List (Int × Option String)) (s : ConvState),
      (conversionTrace calls s).all
        (fun e => e.2.2 == decide (e.2.1 ≥ e.1 + 10 ∨ e.2.1 = 100)) = true := by
  intro calls
  induction calls with
  | nil => intro s; rfl
  | cons c rest ih =>
    intro s
    obtain ⟨p, m⟩ := c
    simp only [conversionTrace, List.all_cons, Bool.and_eq_true]
    refine ⟨?_, ih _⟩
    by_cases hcond : p ≥ s.last_percentage + 10 ∨ p = 100
    · have h2 := hcond
      simp at h2
      simp [conversionUpdateProgress, h2, hcond]
    · have h2 := hcond
      simp at h2
      simp [conversionUpdateProgress, h2.2, not_le.mpr h2.1]

/-- Claim C9: for every call sequence to
`ConversionProgressHook.update_progress`, a message update is attempted iff
`percentage >= last_percentage + 10 or percentage == 100` — a 10-point
throttle, coarser than the download hook's 5-point throttle —
with `last_percentage` (initially -1) set to the percentage exactly on each
attempted update.  The last two conjuncts exhibit the coarseness: at a
fresh state, percent 7 is emitted by the download hook's 5-point throttle
but not by the conversion hook's 10-point throttle. -/
theorem C9_conversion_throttle (calls : List (Int × Option String))
    (hasMsg : Bool) (p : Int) (m : Option String) (res : TgResult) (s : ConvState) :
    (conversionTrace calls (initConvState hasMsg)).all
        (fun e => e.2.2 == decide (e.2.1 ≥ e.1 + 10 ∨ e.2.1 = 100)) = true ∧
    (conversionUpdateProgress p m res s).1.last_percentage =
      (if p ≥ s.last_percentage + 10 ∨ p = 100 then p else s.last_percentage) ∧
    (conversionUpdateProgress p m res s).2.1.length =
      (if p ≥ s.last_percentage + 10 ∨ p = 100 then 1 else 0) ∧
    (initConvState hasMsg).last_percentage = -1 ∧
    (conversionUpdateProgress 7 none .ok (initConvState true)).2.1 = [] ∧
    (downloadHookCall (dlDict 100 7) .ok (initDLState true)).map
        (fun out => out.2.1.length) = .ok 1 := by
  refine ⟨conversionTrace_flag calls (initConvState hasMsg), ?_, ?_, rfl, by decide, rfl⟩
  · by_cases hcond : p ≥ s.last_percentage + 10 ∨ p = 100
    · have h2 := hcond
      simp at h2
      simp [conversionUpdateProgress, h2, hcond, convUpdateProgress_last]
    · have h2 := hcond
      simp at h2
      simp [conversionUpdateProgress, hcond, h2.2, not_le.mpr h2.1]
  · by_cases hcond : p ≥ s.last_percentage + 10 ∨ p = 100
    · have h2 := hcond
      simp at h2
      simp [conversionUpdateProgress, h2, hcond]
    · have h2 := hcond
      simp at h2
      simp [conversionUpdateProgress, hcond, h2.2, not_le.mpr h2.1]

/-- Claim C5: `create_audio_preview` extracts the whole source when the
source is no longer than the requested preview, and otherwise the window
of exactly the requested length centred on the temporal midpoint, which
already lies inside `[0, D]`; in milliseconds, with source duration `D` ms
and requested duration `P` s: `D ≤ 1000·P` gives `[0, D]` and
`D > 1000·P` gives `[D/2 - 500·P, D/2 + 500·P]`.  In particular a 200 s
source with a 30 s preview gives `[85 s, 115 s]` and a 20 s source gives
`[0, 20 s]`. -/
theorem C5_preview_window (D P : Nat) :
    (D ≤ 1000 * P → previewWindow D P = (0, D)) ∧
    (1000 * P < D →
      previewWindow D P = (D / 2 - 500 * P, D / 2 + 500 * P) ∧
      D / 2 + 500 * P ≤ D) ∧
    previewWindow 200000 30 = (85000, 115000) ∧
    previewWindow 20000 30 = (0, 20000) := by
  refine ⟨?_, ?_, by decide, by decide⟩
  · intro h
    unfold previewWindow
    simp only [Prod.mk.injEq]
    omega
  · intro h
    refine ⟨?_, by omega⟩
    unfold previewWindow
    simp only [Prod.mk.injEq]
    omega

theorem C5_preview_window_witness :
    1000 * 30 < 200000 ∧
    (previewWindow 200000 30 = (200000 / 2 - 500 * 30, 200000 / 2 + 500 * 30) ∧
     200000 / 2 + 500 * 30 ≤ 200000) ∧
    20000 ≤ 1000 * 30 ∧ previewWindow 20000 30 = (0, 20000) :=
  ⟨by norm_num, (C5_preview_window 200000 30).2.1 (by norm_num),
   by norm_num, (C5_preview_window 20000 30).1 (by norm_num)⟩

/-- Claim C4 counterexample: with exit code 1 and stderr "invalid data",
the failure raised by `convert_mp3_to_mp4` reads
"FFmpeg conversion failed with code 1"; it does not contain the captured
stderr "invalid data" (which goes only to the log), and the conversion
handler's user-facing report repeats the same stderr-free text. -/
theorem C4_counterexample :
    (convert_mp3_to_mp4 "in.mp3"
        { tempName := "out.mp4", probe := .ok "180.0",
          ffmpeg := { returncode := 1, stderr := "invalid data" } } []).1 =
      .error "FFmpeg conversion failed with code 1" ∧
    charsContain "invalid data".data
      "FFmpeg conversion failed with code 1".data = false ∧
    (handle_file_for_conversion
        { conversion_type := some "mp4_to_mp3", hasFile := true,
          inputTempName := "input.mp4", downloadOk := true,
          outputTempName := "output.mp3", probe := .ok "10.0",
          ffmpeg := { returncode := 1, stderr := "invalid data" },
          send := .ok () } []).2.2.1 =
      ["Downloading your file...", "Converting your file...",
       "Sorry, I encountered an error during conversion: FFmpeg conversion failed with code 1"] := by
  refine ⟨rfl, by decide, rfl⟩

/-- Claim C4 (amended): for both conversion directions a non-zero
transcoder exit is a terminal failure; the raised error detail carries the
exit code, while the captured stderr is written to the log
("FFmpeg error: ...") rather than into the error detail. -/
theorem C4_nonzero_exit (mp3_path mp4_path tempName : String)
    (env : ConvertEnv) (proc : ProcResult) (fs fs2 : List String)
    (h1 : env.ffmpeg.returncode ≠ 0) (h2 : proc.returncode ≠ 0) :
    (convert_mp3_to_mp4 mp3_path env fs).1 =
      .error ("FFmpeg conversion failed with code "
        ++ toString env.ffmpeg.returncode) ∧
    ("FFmpeg error: " ++ env.ffmpeg.stderr) ∈ (convert_mp3_to_mp4 mp3_path env fs).2.2 ∧
    (convert_mp4_to_mp3 mp4_path tempName proc fs2).1 =
      .error ("FFmpeg conversion failed with code " ++ toString proc.returncode) ∧
    ("FFmpeg error: " ++ proc.stderr) ∈ (convert_mp4_to_mp3 mp4_path tempName proc fs2).2.2 := by
  refine ⟨?_, ?_, ?_, ?_⟩ <;>
    simp [convert_mp3_to_mp4, convert_mp4_to_mp3, h1, h2]

theorem C4_nonzero_exit_witness :
    ((1 : Int) ≠ 0) ∧
    ((convert_mp3_to_mp4 "a.mp3"
        { tempName := "t.mp4", probe := .error "probe broke",
          ffmpeg := { returncode := 1, stderr := "boom" } } []).1 =
      .error ("FFmpeg conversion failed with code " ++ toString (1 : Int)) ∧
     ("FFmpeg error: " ++ "boom") ∈ (convert_mp3_to_mp4 "a.mp3"
        { tempName := "t.mp4", probe := .error "probe broke",
          ffmpeg := { returncode := 1, stderr := "boom" } } []).2.2 ∧
     (convert_mp4_to_mp3 "b.mp4" "t.mp3"
        { returncode := 1, stderr := "boom" } []).1 =
      .error ("FFmpeg conversion failed with code " ++ toString (1 : Int)) ∧
     ("FFmpeg error: " ++ "boom") ∈ (convert_mp4_to_mp3 "b.mp4" "t.mp3"
        { returncode := 1, stderr := "boom" } []).2.2) :=
  ⟨by decide,
   C4_nonzero_exit "a.mp3" "b.mp4" "t.mp3"
     { tempName := "t.mp4", probe := .error "probe broke",
       ffmpeg := { returncode := 1, stderr := "boom" } }
     { returncode := 1, stderr := "boom" } [] [] (by decide) (by decide)⟩

/-- Claim C3 is violated by the code: two concrete failing runs.  In
`preview_song`, when sending the waveform photo raises after a successful
bundle, the handler's except branch removes nothing, leaving the trimmed
preview and the waveform image on disk.  In `handle_file_for_conversion`,
when ffmpeg exits non-zero, the except branch removes only the input file,
leaving the converter's output temp file on disk. -/
theorem C3_cleanup_violation :
    preview_song
      { validIndex := true, download := .ok (some "song.mp3"),
        bundle := { previewTempName := "preview.mp3", previewOk := true,
                    waveformTempName := "waveform.png", waveformOk := true },
        sendPhoto := .error "Timed out", sendAudio := .ok () } [] =
      ["preview.mp3", "waveform.png"] ∧
    (handle_file_for_conversion
      { conversion_type := some "mp4_to_mp3", hasFile := true,
        inputTempName := "input.mp4", downloadOk := true,
        outputTempName := "output.mp3", probe := .ok "10.0",
        ffmpeg := { returncode := 1, stderr := "invalid data" },
        send := .ok () } []).2.1 = ["output.mp3"] := by
  refine ⟨by decide, by decide⟩

theorem C2_amended_throttle_witness :
    (0 : Nat) < 100 ∧ List.Chain' (· < ·) [4, 9, 100] ∧
    (∀ b ∈ [4, 9, 100], b ≤ 100) ∧
    ((∀ e ∈ downloadTrace 100 [4, 9, 100] (initDLState true),
        e.2.2 = decide (((e.2.1 : Nat) : Int) ≥ e.1 + 5 ∨ e.2.1 = 100)) ∧
     List.Chain' (· < ·) (emittedPercents 100 [4, 9, 100] (initDLState true)) ∧
     (emittedPercents 100 [4, 9, 100] (initDLState true)).Nodup) :=
  ⟨by norm_num, by norm_num [List.chain'_cons], by decide,
   C2_amended_throttle 100 [4, 9, 100] true (by norm_num)
     (by norm_num [List.chain'_cons]) (by decide)⟩

end Audionix
